import Mathlib

/-!
Shallow embedding of the gisp front end (gisp.go): the channel-based lexer
state machine (lines 54-560) and the recursive-descent reader `parse`
(lines 562-607), together with theorems about the tokenizer/reader claims.

Embedding conventions:
* The input is a `List Char` (one entry per rune); positions are rune
  indices rather than byte offsets.  All inputs considered here are ASCII,
  where the two coincide.
* The Go lexer sends `item` values over the channel `l.items`; here every
  state function returns the list of items it sends during that activation
  (`StepRes.out`), and the driver loop `runN` concatenates them, so the
  accumulated list is exactly the channel contents in order.
* A state function returning `nil` in Go (after `emit(_EOF)` or `errorf`)
  is `StepRes.nxt = none`; the driver `run` then closes the channel.
  Reading a closed channel yields the zero item (`itemError` with empty
  text), which makes `parse` panic — modelled by the empty-token-list case
  of `parse` returning the "syntax error" outcome.
* The machine need not terminate (several states re-enter themselves at
  end of input without consuming anything), so the driver loop takes fuel.
* `unicode.IsDigit` is modelled by `Char.isDigit`; they agree on ASCII.
* `fmt.Sprintf("...%c", r)` on the eof sentinel rune (-1) renders the
  Unicode replacement character, modelled by `runeFormat`.
-/

namespace Gisp

/-- The rune `'` (written via its code point to keep the source plain). -/
def squote : Char := Char.ofNat 39

/-- The rune for backquote (code point 96). -/
def bquote : Char := Char.ofNat 96

/-- The set `digits = "0123456789"` used by `lexInt`/`lexFloat`. -/
def digitsList : List Char := ['0', '1', '2', '3', '4', '5', '6', '7', '8', '9']

/-- Enumeration `itemType` from gisp.go lines 29-50.  The `_LVECT`-style constants used
by the state functions are the same enumeration under the obvious renaming
(`_LPAREN` = `itemLeftParen`, `_SYMBOL` = `itemIdent`, `_INVALID` =
`itemError`, `_EOF` = `itemEOF`, and so on). -/
inductive ItemType where
  | error
  | eof
  | leftParen
  | rightParen
  | leftVect
  | rightVect
  | ident
  | str
  | chr
  | float
  | int
  | quote
  | quasiQuote
  | unquote
  | unquoteSplice
  deriving DecidableEq, Repr

/-- Structure `item` from gisp.go lines 23-27: type, start position, text. -/
structure Item where
  typ : ItemType
  pos : Nat
  val : String
  deriving DecidableEq, Repr

/-- Names of the `stateFn` values of the lexer (one per Go function). -/
inductive StateName where
  | whitespace
  | openParen
  | closeParen
  | openVect
  | closeVect
  | quote
  | quasiquote
  | unquote
  | unquoteSplice
  | str
  | int
  | float
  | symbol
  | comment
  deriving DecidableEq, Repr

/-- The mutable lexer state of gisp.go lines 56-68 (the channel is modelled
by the item lists returned from each step, so it is not a field). -/
structure Lexer where
  input : List Char
  pos : Nat
  start : Nat
  width : Nat
  parenDepth : Int
  vectDepth : Int
  deriving DecidableEq, Repr

/-- The rune `next` (gisp.go lines 71-80) would return: `none` is eof. -/
def Lexer.nextRune (l : Lexer) : Option Char :=
  l.input.get? l.pos

/-- The state change performed by `next`: advance one rune and record its
width, or record width 0 at end of input. -/
def Lexer.advance (l : Lexer) : Lexer :=
  if l.pos < l.input.length then { l with width := 1, pos := l.pos + 1 }
  else { l with width := 0 }

/-- Source method `backup` (gisp.go lines 90-92). -/
def Lexer.backup (l : Lexer) : Lexer :=
  { l with pos := l.pos - l.width }

/-- The state change performed by `peek` (gisp.go lines 83-87):
`next` followed by `backup`, so the position is restored but the width of
the peeked rune remains recorded. -/
def Lexer.afterPeek (l : Lexer) : Lexer :=
  l.advance.backup

/-- Source method `ignore` (gisp.go lines 100-102). -/
def Lexer.ignore (l : Lexer) : Lexer :=
  { l with start := l.pos }

/-- The item that `emit(t)` (gisp.go lines 95-98) sends:
`item{t, l.start, l.input[l.start:l.pos]}`. -/
def Lexer.mkItem (l : Lexer) (t : ItemType) : Item :=
  ⟨t, l.start, String.mk ((l.input.drop l.start).take (l.pos - l.start))⟩

/-- The state change performed by `emit`: `l.start = l.pos`. -/
def Lexer.afterEmit (l : Lexer) : Lexer :=
  { l with start := l.pos }

/-- The item that `errorf` (gisp.go lines 120-123) sends:
`item{itemError, l.start, message}`. -/
def Lexer.errItem (l : Lexer) (msg : String) : Item :=
  ⟨.error, l.start, msg⟩

/-- Source method `acceptRun(valid)` (gisp.go lines 114-118): consume the maximal run of
runes from the valid set; the failing `next`/`backup` pair leaves the width
of the rune after the run (0 at end of input). -/
def Lexer.acceptRun (l : Lexer) (valid : List Char) : Lexer :=
  let run := ((l.input.drop l.pos).takeWhile (fun c => c ∈ valid)).length
  if l.pos + run < l.input.length then { l with pos := l.pos + run, width := 1 }
  else { l with pos := l.pos + run, width := 0 }

/-- Predicate `unicode.IsDigit` on the result of `next` (eof is not a digit). -/
def isDigitOpt : Option Char → Bool
  | some c => c.isDigit
  | none => false

/-- What `fmt.Sprintf("%c", r)` renders for the rune `r` (the eof sentinel
-1 renders as the Unicode replacement character U+FFFD). -/
def runeFormat : Option Char → String
  | some c => String.mk [c]
  | none => String.mk [Char.ofNat 0xFFFD]

/-- The result of one activation of a `stateFn`: the updated lexer, the
items sent to the channel during the activation (in order), and the
returned next state (`none` for Go's `nil`). -/
structure StepRes where
  lx : Lexer
  out : List Item
  nxt : Option StateName
  deriving DecidableEq, Repr

/-- The character dispatch of `lexWhitespace` for a successfully read rune
(the switch cases of gisp.go lines 398-418 other than `eof`, then the
digit test and the symbol default; the cases are mutually exclusive, so
their order is immaterial). -/
def wsDispatch (r : Option Char) : StateName :=
  if r = some ' ' ∨ r = some '\t' ∨ r = some '\n' then .whitespace
  else if r = some squote then .quote
  else if r = some bquote then .quasiquote
  else if r = some ',' then .unquote
  else if r = some '"' then .str
  else if r = some '(' then .openParen
  else if r = some ')' then .closeParen
  else if r = some '[' then .openVect
  else if r = some ']' then .closeVect
  else if r = some ';' then .comment
  else if isDigitOpt r then .int
  else .symbol

/-- Source function `lexWhitespace` (gisp.go lines 394-432): skip the pending span, read a
rune; at end of input an open paren depth is the "unclosed paren" error
and depth ≤ 0 emits `_EOF` and stops; otherwise dispatch on the rune. -/
def lexWhitespace (l0 : Lexer) : StepRes :=
  let li := l0.ignore
  let r := li.nextRune
  let l := li.advance
  if r = none then
    if l.parenDepth > 0 then ⟨l, [l.errItem "unclosed paren"], none⟩
    else ⟨l.afterEmit, [l.mkItem .eof], none⟩
  else ⟨l, [], some (wsDispatch r)⟩

/-- The shared dispatch of `lexOpenParen`/`lexOpenVect`/`lexCloseVect`
(gisp.go lines 152-180, 190-217, 226-253): whitespace (including carriage
return), quoting prefixes, brackets, comment, digit, default symbol.  At
end of input no case matches and control falls through to `lexSymbol`. -/
def parenDispatch (r : Option Char) : Option StateName :=
  if r = some ' ' ∨ r = some '\t' ∨ r = some '\n' ∨ r = some '\r' then some .whitespace
  else if r = some squote then some .quote
  else if r = some bquote then some .quasiquote
  else if r = some ',' then some .unquote
  else if r = some '(' then some .openParen
  else if r = some ')' then some .closeParen
  else if r = some '[' then some .openVect
  else if r = some ']' then some .closeVect
  else if r = some ';' then some .comment
  else if isDigitOpt r then some .int
  else some .symbol

/-- Source function `lexOpenVect` (gisp.go lines 148-181): emit `_LVECT`, increment
`vectDepth`, read a rune and dispatch. -/
def lexOpenVect (l0 : Lexer) : StepRes :=
  let it := l0.mkItem .leftVect
  let l1 : Lexer := { l0.afterEmit with vectDepth := l0.vectDepth + 1 }
  let r := l1.nextRune
  let l := l1.advance
  ⟨l, [it], parenDispatch r⟩

/-- Source function `lexCloseVect` (gisp.go lines 183-218): emit `_RVECT`, decrement
`vectDepth`, then — as written in the source — test `parenDepth < 0`
(not `vectDepth`) before dispatching. -/
def lexCloseVect (l0 : Lexer) : StepRes :=
  let it := l0.mkItem .rightVect
  let l1 : Lexer := { l0.afterEmit with vectDepth := l0.vectDepth - 1 }
  if l1.parenDepth < 0 then ⟨l1, [it, l1.errItem "unexpected close paren [vect]"], none⟩
  else
    let r := l1.nextRune
    let l := l1.advance
    ⟨l, [it], parenDispatch r⟩

/-- Source function `lexOpenParen` (gisp.go lines 221-254). -/
def lexOpenParen (l0 : Lexer) : StepRes :=
  let it := l0.mkItem .leftParen
  let l1 : Lexer := { l0.afterEmit with parenDepth := l0.parenDepth + 1 }
  let r := l1.nextRune
  let l := l1.advance
  ⟨l, [it], parenDispatch r⟩

/-- The switch of `lexCloseParen` (gisp.go lines 533-546): only
whitespace (no carriage return), brackets and `;` continue; `none` stands
for the fall-through to the "unimplemented" error. -/
def closeParenDispatch (r : Option Char) : Option StateName :=
  if r = some ' ' ∨ r = some '\t' ∨ r = some '\n' then some .whitespace
  else if r = some '(' then some .openParen
  else if r = some ')' then some .closeParen
  else if r = some '[' then some .openVect
  else if r = some ']' then some .closeVect
  else if r = some ';' then some .comment
  else none

/-- Source function `lexCloseParen` (gisp.go lines 525-548): emit `_RPAREN`, decrement
`parenDepth` (negative depth is the "unexpected close paren" error), then
dispatch on the next rune; any rune other than whitespace, brackets or `;`
— including end of input — is the "unimplemented" error. -/
def lexCloseParen (l0 : Lexer) : StepRes :=
  let it := l0.mkItem .rightParen
  let l1 : Lexer := { l0.afterEmit with parenDepth := l0.parenDepth - 1 }
  if l1.parenDepth < 0 then ⟨l1, [it, l1.errItem "unexpected close paren"], none⟩
  else
    let r := l1.nextRune
    let l := l1.advance
    match closeParenDispatch r with
    | some sn => ⟨l, [it], some sn⟩
    | none => ⟨l, [it, l1.errItem "unimplemented"], none⟩

/-- The shared dispatch of the quoting states (gisp.go lines 261-286,
294-319, 332-357, 366-391): string, brackets, quoting prefixes, digit,
default symbol (whitespace, `;` and end of input all fall to symbol). -/
def quoteDispatch (r : Option Char) : Option StateName :=
  if r = some '"' then some .str
  else if r = some '(' then some .openParen
  else if r = some ')' then some .closeParen
  else if r = some '[' then some .openVect
  else if r = some ']' then some .closeVect
  else if r = some squote then some .quote
  else if r = some bquote then some .quasiquote
  else if r = some ',' then some .unquote
  else if isDigitOpt r then some .int
  else some .symbol

/-- Source function `lexQuote` (gisp.go lines 256-287): skip a run of plain spaces, ignore
it, emit a zero-width `_QUOTE` marker, then read a rune and dispatch. -/
def lexQuote (l0 : Lexer) : StepRes :=
  let l1 := (l0.acceptRun [' ']).ignore
  let it := l1.mkItem .quote
  let l2 := l1.afterEmit
  let r := l2.nextRune
  let l := l2.advance
  ⟨l, [it], quoteDispatch r⟩

/-- Source function `lexQuasiquote` (gisp.go lines 289-320). -/
def lexQuasiquote (l0 : Lexer) : StepRes :=
  let l1 := (l0.acceptRun [' ']).ignore
  let it := l1.mkItem .quasiQuote
  let l2 := l1.afterEmit
  let r := l2.nextRune
  let l := l2.advance
  ⟨l, [it], quoteDispatch r⟩

/-- Source function `lexUnquote` (gisp.go lines 322-358): if the peeked rune is `@`, hand
over to `lexUnquoteSplice` without consuming; otherwise emit `_UNQUOTE`
and dispatch. -/
def lexUnquote (l0 : Lexer) : StepRes :=
  let lp := l0.afterPeek
  if l0.nextRune = some '@' then ⟨lp, [], some .unquoteSplice⟩
  else
    let l1 := (lp.acceptRun [' ']).ignore
    let it := l1.mkItem .unquote
    let l2 := l1.afterEmit
    let r := l2.nextRune
    let l := l2.advance
    ⟨l, [it], quoteDispatch r⟩

/-- Source function `lexUnquoteSplice` (gisp.go lines 360-392): consume the `@`, emit
`_UNQUOTESPLICE`, dispatch. -/
def lexUnquoteSplice (l0 : Lexer) : StepRes :=
  let l1 := l0.advance
  let l2 := (l1.acceptRun [' ']).ignore
  let it := l2.mkItem .unquoteSplice
  let l3 := l2.afterEmit
  let r := l3.nextRune
  let l := l3.advance
  ⟨l, [it], quoteDispatch r⟩

/-- Source function `lexString` (gisp.go lines 434-449): a closing `"` emits `_STRING`; a
backslash consumes the next rune; anything else — including end of input,
which consumes nothing — re-enters the string state. -/
def lexString (l0 : Lexer) : StepRes :=
  let r := l0.nextRune
  let l := l0.advance
  if r = some '"' then ⟨l.afterEmit, [l.mkItem .str], some .whitespace⟩
  else if r = some '\\' then ⟨l.advance, [], some .str⟩
  else ⟨l, [], some .str⟩

/-- Source function `lexInt` (gisp.go lines 451-476): accept a digit run, then peek:
space/tab/newline, `)` or `;` delimit and emit `_INT`; `.` switches to the
float state; anything else — `]` and end of input included — is the
"unexpected rune in lexInt" error. -/
def lexInt (l0 : Lexer) : StepRes :=
  let la := l0.acceptRun digitsList
  let r := la.nextRune
  let lp := la.afterPeek
  if r = some ' ' ∨ r = some '\t' ∨ r = some '\n' then
    ⟨lp.afterEmit.advance, [lp.mkItem .int], some .whitespace⟩
  else if r = some '.' then ⟨lp.advance, [], some .float⟩
  else if r = some ')' then ⟨lp.afterEmit.advance, [lp.mkItem .int], some .closeParen⟩
  else if r = some ';' then ⟨lp.afterEmit.advance, [lp.mkItem .int], some .comment⟩
  else ⟨lp, [lp.errItem ("unexpected rune in lexInt: " ++ runeFormat r)], none⟩

/-- Source function `lexFloat` (gisp.go lines 480-499): accept a digit run and emit
`_FLOAT` unconditionally, then read a rune: space/tab/newline, `)` or `;`
continue; anything else is the "unexpected run in lexFloat" error. -/
def lexFloat (l0 : Lexer) : StepRes :=
  let la := l0.acceptRun digitsList
  let it := la.mkItem .float
  let l1 := la.afterEmit
  let r := l1.nextRune
  let l := l1.advance
  if r = some ' ' ∨ r = some '\t' ∨ r = some '\n' then ⟨l, [it], some .whitespace⟩
  else if r = some ')' then ⟨l, [it], some .closeParen⟩
  else if r = some ';' then ⟨l, [it], some .comment⟩
  else ⟨l, [it, l1.errItem ("unexpected run in lexFloat: " ++ runeFormat r)], none⟩

/-- Source function `lexSymbol` (gisp.go lines 501-522): peek; space/tab/newline, `)` or
`;` delimit and emit `_SYMBOL`; any other rune is consumed and the symbol
state re-entered — at end of input nothing is consumed, so the state
re-enters itself forever. -/
def lexSymbol (l0 : Lexer) : StepRes :=
  let r := l0.nextRune
  let lp := l0.afterPeek
  if r = some ' ' ∨ r = some '\t' ∨ r = some '\n' then
    ⟨lp.afterEmit.advance, [lp.mkItem .ident], some .whitespace⟩
  else if r = some ')' then ⟨lp.afterEmit.advance, [lp.mkItem .ident], some .closeParen⟩
  else if r = some ';' then ⟨lp.afterEmit.advance, [lp.mkItem .ident], some .comment⟩
  else ⟨lp.advance, [], some .symbol⟩

/-- Source function `lexComment` (gisp.go lines 551-560): discard runes until a newline or
carriage return; end of input consumes nothing and re-enters the state. -/
def lexComment (l0 : Lexer) : StepRes :=
  let r := l0.nextRune
  let l := l0.advance
  if r = some '\n' ∨ r = some '\r' then ⟨l, [], some .whitespace⟩
  else ⟨l, [], some .comment⟩

/-- One activation of the current `stateFn`. -/
def lexStep : StateName → Lexer → StepRes
  | .whitespace, l => lexWhitespace l
  | .openParen, l => lexOpenParen l
  | .closeParen, l => lexCloseParen l
  | .openVect, l => lexOpenVect l
  | .closeVect, l => lexCloseVect l
  | .quote, l => lexQuote l
  | .quasiquote, l => lexQuasiquote l
  | .unquote, l => lexUnquote l
  | .unquoteSplice, l => lexUnquoteSplice l
  | .str, l => lexString l
  | .int, l => lexInt l
  | .float, l => lexFloat l
  | .symbol, l => lexSymbol l
  | .comment, l => lexComment l

/-- The fresh lexer of `lex` (gisp.go lines 131-139). -/
def initLexer (s : String) : Lexer :=
  ⟨s.data, 0, 0, 0, 0, 0⟩

/-- The driver loop `run` (gisp.go lines 141-146), with fuel: starting
from `lexWhitespace`, repeatedly apply the current state function and
concatenate the items it sends, until the state is `nil` (or the fuel runs
out with the machine still running). -/
def runN : Nat → Lexer → Option StateName → List Item → List Item × Lexer × Option StateName
  | 0, l, o, acc => (acc, l, o)
  | _ + 1, l, none, acc => (acc, l, none)
  | n + 1, l, some sn, acc =>
    let s := lexStep sn l
    runN n s.lx s.nxt (acc ++ s.out)

/-- The items sent within `fuel` activations on input `s`. -/
def lexOut (fuel : Nat) (s : String) : List Item :=
  (runN fuel (initLexer s) (some .whitespace) []).1

/-- The lexer state after `fuel` activations on input `s`. -/
def lexEnd (fuel : Nat) (s : String) : Lexer :=
  (runN fuel (initLexer s) (some .whitespace) []).2.1

/-- The pending state after `fuel` activations on input `s` (`none` when
the machine has halted). -/
def lexNext (fuel : Nat) (s : String) : Option StateName :=
  (runN fuel (initLexer s) (some .whitespace) []).2.2

/-- Both entry points (`args`, gisp.go line 614, and the REPL, line 640)
lex `text + "\n"`: the program always appends one newline to the chunk. -/
def gispInput (s : String) : String := s ++ "\n"

/-- The `astToken` atoms appended by `parse` (fields `Value` and `Type`),
and the `[]Any` nested lists it builds. -/
inductive AnyNode where
  | tok (value : String) (ttype : String)
  | list (xs : List AnyNode)

/-- The `Type` tag `parse` assigns (gisp.go lines 593-601); token types
outside the four atom cases — vector brackets and quoting markers
included — leave the zero value `""`. -/
def goTypeOf : ItemType → String
  | .int => "INT"
  | .float => "FLOAT"
  | .str => "STRING"
  | .ident => "IDENT"
  | _ => ""

/-- Outcome of a `parse` call: the accumulated sequence plus the unread
remainder of the token stream, or a panic message. -/
inductive PStep where
  | ok (p : List AnyNode) (rest : List Item)
  | err (msg : String)

/-- Source function `parse` (gisp.go lines 562-607), with fuel for the recursion: `_EOF`
breaks and returns the accumulated sequence; `_INVALID` (the error item)
panics "syntax error"; `_LPAREN` recurses into a fresh child sequence and
then continues at the current level; `_RPAREN` returns; every other token
— vector brackets and quote markers included — is appended as an
`astToken` atom.  Reading past the end of the stream reads the closed
channel's zero item (`itemError`), which also panics. -/
def parse : Nat → List Item → List AnyNode → PStep
  | 0, _, _ => .err "out of fuel"
  | _ + 1, [], _ => .err "syntax error"
  | n + 1, t :: ts, p =>
    if t.typ = .eof then .ok p ts
    else if t.typ = .error then .err "syntax error"
    else if t.typ = .leftParen then
      match parse n ts [] with
      | .err e => .err e
      | .ok sub ts2 => parse n ts2 (p ++ [.list sub])
    else if t.typ = .rightParen then .ok p ts
    else parse n ts (p ++ [.tok t.val (goTypeOf t.typ)])

/-- What the program computes for one input chunk `s` (gisp.go lines
609-626): tokenize `s + "\n"` and run `parse` over the channel contents.
`none` means the lexer was still running after `lexFuel` activations (in
Go, `parse` would then block on the channel forever). -/
def gispParse (lexFuel parseFuel : Nat) (s : String) : Option PStep :=
  let r := runN lexFuel (initLexer (gispInput s)) (some .whitespace) []
  if r.2.2 = none then some (parse parseFuel r.1 []) else none

/- The atoms of a parse tree, flattened in left-to-right order
(value/type pairs of the astToken leaves). -/
mutual

/-- Atoms of one node, in left-to-right order. -/
def atomsN : AnyNode → List (String × String)
  | .tok v t => [(v, t)]
  | .list xs => atomsL xs

/-- Atoms of a node sequence, in left-to-right order. -/
def atomsL : List AnyNode → List (String × String)
  | [] => []
  | x :: xs => atomsN x ++ atomsL xs

end

/-- The atoms a token list contributes, in stream order: every token other
than `_EOF`, the error item, `_LPAREN` and `_RPAREN` becomes one atom. -/
def atomToks : List Item → List (String × String)
  | [] => []
  | t :: ts =>
    (if t.typ = .eof ∨ t.typ = .error ∨ t.typ = .leftParen ∨ t.typ = .rightParen then []
     else [(t.val, goTypeOf t.typ)]) ++ atomToks ts

/-- No terminating token: no item of the list is the error item or the
end-of-input item. -/
def cleanItems (xs : List Item) : Prop :=
  ∀ x ∈ xs, x.typ ≠ .error ∧ x.typ ≠ .eof

instance : DecidablePred cleanItems := fun xs =>
  inferInstanceAs (Decidable (∀ x ∈ xs, x.typ ≠ .error ∧ x.typ ≠ .eof))

/-- Run invariant: all emitted items except possibly the last are ordinary
tokens; while the machine is running the emitted items contain no
terminator at all and the paren depth is non-negative; an emitted
end-of-input item means the machine has halted with paren depth zero. -/
def Inv (acc : List Item) (l : Lexer) (o : Option StateName) : Prop :=
  cleanItems acc.dropLast ∧
  (o.isSome → cleanItems acc ∧ 0 ≤ l.parenDepth) ∧
  (∀ x ∈ acc, x.typ = .eof → o = none ∧ l.parenDepth = 0)

/-- Per-activation contract used by the run invariant: a continuing
activation emits no terminator and keeps the paren depth non-negative; a
halting activation may emit a terminator only as its last item; an emitted
end-of-input item forces a halt with the paren depth unchanged and
non-positive. -/
def StepOk (l : Lexer) (s : StepRes) : Prop :=
  (s.nxt.isSome → cleanItems s.out ∧ (0 ≤ l.parenDepth → 0 ≤ s.lx.parenDepth)) ∧
  (s.nxt = none → cleanItems s.out.dropLast) ∧
  (∀ x ∈ s.out, x.typ = .eof →
    s.nxt = none ∧ s.lx.parenDepth = l.parenDepth ∧ l.parenDepth ≤ 0)

/-!### Helper lemmas -/

@[simp] theorem advance_parenDepth (l : Lexer) : l.advance.parenDepth = l.parenDepth := by
  simp only [Lexer.advance]
  split <;> rfl

@[simp] theorem backup_parenDepth (l : Lexer) : l.backup.parenDepth = l.parenDepth := rfl

@[simp] theorem afterPeek_parenDepth (l : Lexer) : l.afterPeek.parenDepth = l.parenDepth := by
  simp [Lexer.afterPeek]

@[simp] theorem ignore_parenDepth (l : Lexer) : l.ignore.parenDepth = l.parenDepth := rfl

@[simp] theorem afterEmit_parenDepth (l : Lexer) : l.afterEmit.parenDepth = l.parenDepth := rfl

@[simp] theorem acceptRun_parenDepth (l : Lexer) (v : List Char) :
    (l.acceptRun v).parenDepth = l.parenDepth := by
  simp only [Lexer.acceptRun]
  split <;> rfl

@[simp] theorem mkItem_typ (l : Lexer) (t : ItemType) : (l.mkItem t).typ = t := rfl

@[simp] theorem errItem_typ (l : Lexer) (m : String) : (l.errItem m).typ = .error := rfl

theorem cleanItems_nil : cleanItems [] := by
  intro x hx
  cases hx

theorem cleanItems_append {xs ys : List Item} (hx : cleanItems xs) (hy : cleanItems ys) :
    cleanItems (xs ++ ys) := by
  intro a ha
  rcases List.mem_append.1 ha with h | h
  · exact hx a h
  · exact hy a h

theorem cleanItems_dropLast {xs : List Item} (hx : cleanItems xs) : cleanItems xs.dropLast :=
  fun a ha => hx a ((List.dropLast_sublist xs).subset ha)

theorem cleanItems_append_dropLast {xs ys : List Item}
    (hx : cleanItems xs) (hy : cleanItems ys.dropLast) :
    cleanItems (xs ++ ys).dropLast := by
  cases ys with
  | nil => simpa using cleanItems_dropLast hx
  | cons y ys =>
    rw [List.dropLast_append_cons]
    exact cleanItems_append hx hy

theorem stepOk_whitespace (l : Lexer) : StepOk l (lexWhitespace l) := by
  simp only [StepOk, lexWhitespace]
  split_ifs <;> simp_all [cleanItems]

theorem stepOk_openParen (l : Lexer) : StepOk l (lexOpenParen l) := by
  simp only [StepOk, lexOpenParen]
  simp [cleanItems]
  omega

theorem stepOk_closeParen (l : Lexer) : StepOk l (lexCloseParen l) := by
  simp only [StepOk, lexCloseParen]
  split_ifs with h1
  · simp [cleanItems]
  · rcases closeParenDispatch _ with _ | sn <;> simp_all [cleanItems]

theorem stepOk_openVect (l : Lexer) : StepOk l (lexOpenVect l) := by
  simp only [StepOk, lexOpenVect]
  simp [cleanItems]

theorem stepOk_closeVect (l : Lexer) : StepOk l (lexCloseVect l) := by
  simp only [StepOk, lexCloseVect]
  split_ifs <;> simp_all [cleanItems]

theorem stepOk_quote (l : Lexer) : StepOk l (lexQuote l) := by
  simp only [StepOk, lexQuote]
  simp [cleanItems]

theorem stepOk_quasiquote (l : Lexer) : StepOk l (lexQuasiquote l) := by
  simp only [StepOk, lexQuasiquote]
  simp [cleanItems]

theorem stepOk_unquote (l : Lexer) : StepOk l (lexUnquote l) := by
  simp only [StepOk, lexUnquote]
  split_ifs <;> simp_all [cleanItems]

theorem stepOk_unquoteSplice (l : Lexer) : StepOk l (lexUnquoteSplice l) := by
  simp only [StepOk, lexUnquoteSplice]
  simp [cleanItems]

theorem stepOk_string (l : Lexer) : StepOk l (lexString l) := by
  simp only [StepOk, lexString]
  split_ifs <;> simp_all [cleanItems]

theorem stepOk_int (l : Lexer) : StepOk l (lexInt l) := by
  simp only [StepOk, lexInt]
  split_ifs <;> simp_all [cleanItems]

theorem stepOk_float (l : Lexer) : StepOk l (lexFloat l) := by
  simp only [StepOk, lexFloat]
  split_ifs <;> simp_all [cleanItems]

theorem stepOk_symbol (l : Lexer) : StepOk l (lexSymbol l) := by
  simp only [StepOk, lexSymbol]
  split_ifs <;> simp_all [cleanItems]

theorem stepOk_comment (l : Lexer) : StepOk l (lexComment l) := by
  simp only [StepOk, lexComment]
  split_ifs <;> simp_all [cleanItems]

theorem lexStep_spec (sn : StateName) (l : Lexer) : StepOk l (lexStep sn l) := by
  cases sn
  case whitespace => exact stepOk_whitespace l
  case openParen => exact stepOk_openParen l
  case closeParen => exact stepOk_closeParen l
  case openVect => exact stepOk_openVect l
  case closeVect => exact stepOk_closeVect l
  case quote => exact stepOk_quote l
  case quasiquote => exact stepOk_quasiquote l
  case unquote => exact stepOk_unquote l
  case unquoteSplice => exact stepOk_unquoteSplice l
  case str => exact stepOk_string l
  case int => exact stepOk_int l
  case float => exact stepOk_float l
  case symbol => exact stepOk_symbol l
  case comment => exact stepOk_comment l

/-- The run invariant is preserved by the driver loop. -/
theorem runN_inv (n : Nat) :
    ∀ (acc : List Item) (l : Lexer) (o : Option StateName), Inv acc l o →
      Inv (runN n l o acc).1 (runN n l o acc).2.1 (runN n l o acc).2.2 := by
  induction n with
  | zero => intro acc l o h; simpa [runN] using h
  | succ n ih =>
    intro acc l o h
    cases o with
    | none => simpa [runN] using h
    | some sn =>
      have hs := lexStep_spec sn l
      have h2 := h.2.1 (by simp)
      simp only [runN]
      refine ih _ _ _ ?_
      refine ⟨?_, ?_, ?_⟩
      · refine cleanItems_append_dropLast h2.1 ?_
        cases hn : (lexStep sn l).nxt with
        | some s2 => exact cleanItems_dropLast (hs.1 (by simp [hn])).1
        | none => exact hs.2.1 hn
      · intro hsome
        have hcs := hs.1 hsome
        exact ⟨cleanItems_append h2.1 hcs.1, hcs.2 h2.2⟩
      · intro x hx hxe
        rcases List.mem_append.1 hx with hxa | hxo
        · exact absurd hxe (h2.1 x hxa).2
        · have h3 := hs.2.2 x hxo hxe
          refine ⟨h3.1, ?_⟩
          have := h2.2
          omega

/-- The initial configuration satisfies the run invariant. -/
theorem init_inv (s : String) : Inv [] (initLexer s) (some .whitespace) := by
  refine ⟨by simp [cleanItems], fun _ => ⟨cleanItems_nil, by simp [initLexer]⟩, ?_⟩
  intro x hx
  cases hx

/-- A state whose activation re-enters it without changing the lexer and
without emitting anything pins the driver loop forever. -/
theorem runN_fixed {l : Lexer} {sn : StateName}
    (h : lexStep sn l = ⟨l, [], some sn⟩) :
    ∀ (n : Nat) (acc : List Item), runN n l (some sn) acc = (acc, l, some sn) := by
  intro n
  induction n with
  | zero => intro acc; rfl
  | succ n ih =>
    intro acc
    simp only [runN, h]
    simpa using ih acc

theorem atomsL_append (xs ys : List AnyNode) :
    atomsL (xs ++ ys) = atomsL xs ++ atomsL ys := by
  induction xs with
  | nil => simp [atomsL]
  | cons x xs ih => simp [atomsL, ih]

theorem atomToks_append (xs ys : List Item) :
    atomToks (xs ++ ys) = atomToks xs ++ atomToks ys := by
  induction xs with
  | nil => simp [atomToks]
  | cons x xs ih => simp [atomToks, ih]

/-- Order preservation of `parse`: a successful call returns the atoms of
the accumulator followed by the atoms of the consumed tokens, in stream
order. -/
theorem parse_atoms :
    ∀ (fuel : Nat) (ts : List Item) (p res : List AnyNode) (rest : List Item),
      parse fuel ts p = .ok res rest →
      ∃ consumed, ts = consumed ++ rest ∧ atomsL res = atomsL p ++ atomToks consumed := by
  intro fuel
  induction fuel with
  | zero => intro ts p res rest h; cases h
  | succ n ih =>
    intro ts p res rest h
    match ts with
    | [] => cases h
    | t :: ts =>
      simp only [parse] at h
      by_cases h1 : t.typ = .eof
      · rw [if_pos h1] at h
        injection h with hres hrest
        subst hres
        subst hrest
        exact ⟨[t], by simp, by simp [atomToks, h1]⟩
      rw [if_neg h1] at h
      by_cases h2 : t.typ = .error
      · rw [if_pos h2] at h
        cases h
      rw [if_neg h2] at h
      by_cases h3 : t.typ = .leftParen
      · rw [if_pos h3] at h
        cases hsub : parse n ts [] with
        | err e =>
          rw [hsub] at h
          cases h
        | ok sub ts2 =>
          rw [hsub] at h
          obtain ⟨c1, hts1, ha1⟩ := ih ts [] sub ts2 hsub
          obtain ⟨c2, hts2, ha2⟩ := ih ts2 (p ++ [.list sub]) res rest h
          refine ⟨t :: (c1 ++ c2), ?_, ?_⟩
          · simp [hts1, hts2, List.append_assoc]
          · rw [ha2, atomsL_append]
            simp [atomsL, atomsN, ha1, atomToks, h3, atomToks_append]
      rw [if_neg h3] at h
      by_cases h4 : t.typ = .rightParen
      · rw [if_pos h4] at h
        injection h with hres hrest
        subst hres
        subst hrest
        exact ⟨[t], by simp, by simp [atomToks, h4]⟩
      rw [if_neg h4] at h
      obtain ⟨c, hts, ha⟩ := ih ts (p ++ [.tok t.val (goTypeOf t.typ)]) res rest h
      refine ⟨t :: c, by simp [hts], ?_⟩
      rw [ha, atomsL_append]
      simp [atomsL, atomsN, atomToks, h1, h2, h3, h4]


/-!### Claim theorems -/

/-- C1 (code_bug): the claim says `"[1 [2 3]]"` parses to nested `Vector`
nodes.  On the code, tokenizing the chunk (the program lexes `s + "\n"`)
stops at the `]` after `3`: `lexInt` does not accept `]` as a delimiter,
so the stream is left-vect, int 1, left-vect, int 2 and then the error
item "unexpected rune in lexInt: ]", and `parse` panics ("syntax error").
No vector tree is ever built (indeed `parse` has no `_LVECT`/`_RVECT`
case at all). -/
theorem c1_vector_literal_rejected :
    (lexOut 100 (gispInput "[1 [2 3]]")).map Item.typ =
      [.leftVect, .int, .leftVect, .int, .error] ∧
    (lexOut 100 (gispInput "[1 [2 3]]")).getLast? =
      some ⟨.error, 6, "unexpected rune in lexInt: ]"⟩ ∧
    gispParse 100 100 "[1 [2 3]]" = some (.err "syntax error") :=
  ⟨by decide, by decide, rfl⟩

/-- C2 (code_bug): the claim says tokenization terminates on every input.
On the code the string, comment and symbol states re-enter themselves at
end of input without consuming anything, so on a chunk ending inside a
string literal (here `"a`), inside a comment with no newline (here `;x`),
or inside a symbol with no delimiter (here `ab`), the machine reaches a
state that steps to itself forever: it never halts and never emits an
end-of-input or error item. -/
theorem c2_lexer_loops_at_eof :
    (runN 5 (initLexer (String.mk ['"', 'a'])) (some .whitespace) [] =
        ([], ⟨['"', 'a'], 2, 0, 0, 0, 0⟩, some .str) ∧
      lexStep .str ⟨['"', 'a'], 2, 0, 0, 0, 0⟩ =
        ⟨⟨['"', 'a'], 2, 0, 0, 0, 0⟩, [], some .str⟩ ∧
      ∀ (n : Nat) (acc : List Item),
        runN n (⟨['"', 'a'], 2, 0, 0, 0, 0⟩ : Lexer) (some .str) acc =
          (acc, ⟨['"', 'a'], 2, 0, 0, 0, 0⟩, some .str)) ∧
    (runN 5 (initLexer ";x") (some .whitespace) [] =
        ([], ⟨[';', 'x'], 2, 0, 0, 0, 0⟩, some .comment) ∧
      ∀ (n : Nat) (acc : List Item),
        runN n (⟨[';', 'x'], 2, 0, 0, 0, 0⟩ : Lexer) (some .comment) acc =
          (acc, ⟨[';', 'x'], 2, 0, 0, 0, 0⟩, some .comment)) ∧
    (runN 5 (initLexer "ab") (some .whitespace) [] =
        ([], ⟨['a', 'b'], 2, 0, 0, 0, 0⟩, some .symbol) ∧
      ∀ (n : Nat) (acc : List Item),
        runN n (⟨['a', 'b'], 2, 0, 0, 0, 0⟩ : Lexer) (some .symbol) acc =
          (acc, ⟨['a', 'b'], 2, 0, 0, 0, 0⟩, some .symbol)) :=
  ⟨⟨by decide, by decide, runN_fixed (by decide)⟩,
   ⟨by decide, runN_fixed (by decide)⟩,
   ⟨by decide, runN_fixed (by decide)⟩⟩

/-- C3 (code_bug): the claim says `'(1 2)` parses to a
`Quoted(quote, List[Int 1, Int 2])` node.  On the code the `_QUOTE`
token (emitted with empty text) falls into `parse`'s default branch and
is appended as a bare `astToken` with empty `Value` and empty `Type`,
followed by the list as a separate sibling — there is no `Quoted` node in
the data model and the quote wiring in `parse` is commented out. -/
theorem c3_quote_marker_not_wrapped :
    (lexOut 100 (gispInput (String.mk [squote] ++ "(1 2)"))).map Item.typ =
      [.quote, .leftParen, .int, .int, .rightParen, .eof] ∧
    gispParse 100 100 (String.mk [squote] ++ "(1 2)") =
      some (.ok [.tok "" "", .list [.tok "1" "INT", .tok "2" "INT"]] []) :=
  ⟨by decide, rfl⟩

/-- C4 (code_bug): the claim says that on `")"` and `"("` the reader
reports the structural error to its caller rather than silently returning
the forms read so far.  On the code, for `")"` the tokenizer does emit
right-paren and then the "unexpected close paren" error item, but `parse`
hits its `_RPAREN` branch first and returns the accumulated (empty) form
sequence without ever pulling the error item — silently accepting.  For
`"("` (as fed by the program, which appends a newline) the tokenizer
emits the "unclosed paren" error and `parse` panics ("syntax error")
instead of returning an error result. -/
theorem c4_close_paren_error_swallowed :
    lexOut 10 (gispInput ")") =
      [⟨.rightParen, 0, ")"⟩, ⟨.error, 1, "unexpected close paren"⟩] ∧
    gispParse 10 10 ")" = some (.ok [] [⟨.error, 1, "unexpected close paren"⟩]) ∧
    lexOut 10 (gispInput "(") = [⟨.leftParen, 0, "("⟩, ⟨.error, 2, "unclosed paren"⟩] ∧
    gispParse 10 10 "(" = some (.err "syntax error") :=
  ⟨by decide, rfl, by decide, rfl⟩

/-- C5 (code_bug): the claim says bracket error handling is symmetric to
paren error handling.  On the code `lexCloseVect` tests `parenDepth < 0`
(never `vectDepth`), so `"] "` drives the vector depth to −1 and the
machine halts normally with right-vect followed by end-of-input, no error;
and at end of input only `parenDepth > 0` triggers "unclosed paren", so
the unclosed `"[ "` also ends with a normal end-of-input item while the
vector depth is still 1. -/
theorem c5_vect_depth_never_checked :
    (lexOut 10 "] " = [⟨.rightVect, 0, "]"⟩, ⟨.eof, 2, ""⟩] ∧
      lexNext 10 "] " = none ∧ (lexEnd 10 "] ").vectDepth = -1) ∧
    (lexOut 10 "[ " = [⟨.leftVect, 0, "["⟩, ⟨.eof, 2, ""⟩] ∧
      lexNext 10 "[ " = none ∧ (lexEnd 10 "[ ").vectDepth = 1) := by
  decide

/-- C6 (confirmed): parsing the chunk `"(a b c)"` (the program lexes
`s + "\n"`) yields exactly one top-level list of the three identifier
atoms "a", "b", "c" in that order; and in general a successful `parse`
call returns, beyond the atoms of its accumulator, exactly the atoms of
the consumed tokens in stream order — so sibling order at every nesting
level equals source left-to-right order. -/
theorem c6_sibling_order_preserved :
    gispParse 100 100 "(a b c)" =
      some (.ok [.list [.tok "a" "IDENT", .tok "b" "IDENT", .tok "c" "IDENT"]] []) ∧
    (∀ (fuel : Nat) (ts : List Item) (p res : List AnyNode) (rest : List Item),
      parse fuel ts p = .ok res rest →
      ∃ consumed, ts = consumed ++ rest ∧ atomsL res = atomsL p ++ atomToks consumed) :=
  ⟨rfl, parse_atoms⟩

/-- Witness for C6: the ordering statement applied to the concrete stream
`[ident "a", eof]`. -/
theorem c6_witness :
    ∃ consumed,
      [(⟨.ident, 0, "a"⟩ : Item), ⟨.eof, 1, ""⟩] = consumed ++ ([] : List Item) ∧
      atomsL [.tok "a" "IDENT"] = atomsL [] ++ atomToks consumed :=
  c6_sibling_order_preserved.2 10 [⟨.ident, 0, "a"⟩, ⟨.eof, 1, ""⟩] [] [.tok "a" "IDENT"] [] rfl

/-- C7 (corrected): of the depths the tokenizer tracks, only the paren
depth is guaranteed to be zero when the end-of-input item is emitted (the
vector depth need not return to zero — see the counterexample); and for
every input the emitted items contain at most one terminator, which can
only be the last item, so at most one end-of-input item is emitted and no
item of any kind follows it, and when it is emitted the machine has
halted with paren depth zero. -/
theorem c7_paren_depth_zero_at_eof (fuel : Nat) (s : String) :
    (∀ x ∈ (lexOut fuel s).dropLast, x.typ ≠ .error ∧ x.typ ≠ .eof) ∧
    (∀ x ∈ lexOut fuel s, x.typ = .eof →
      lexNext fuel s = none ∧ (lexEnd fuel s).parenDepth = 0) := by
  have h := runN_inv fuel [] (initLexer s) (some .whitespace) (init_inv s)
  exact ⟨fun x hx => h.1 x hx, fun x hx he => h.2.2 x hx he⟩

/-- Witness for C7: the input `"1 "` tokenizes to an integer item and an
end-of-input item; the theorem yields that the machine halted with paren
depth zero. -/
theorem c7_witness :
    ((⟨.int, 0, "1"⟩ : Item).typ ≠ .error ∧ (⟨.int, 0, "1"⟩ : Item).typ ≠ .eof) ∧
    (lexNext 10 "1 " = none ∧ (lexEnd 10 "1 ").parenDepth = 0) :=
  ⟨(c7_paren_depth_zero_at_eof 10 "1 ").1 ⟨.int, 0, "1"⟩ (by decide),
   (c7_paren_depth_zero_at_eof 10 "1 ").2 ⟨.eof, 2, ""⟩ (by decide) rfl⟩

/-- Counterexample for C7 as stated: `"[ "` is well-formed in the claim's
sense (its tokenization succeeds with no error item), the end-of-input
item is emitted, yet the bracket depth tracked for vectors is 1, not 0,
at end of input. -/
theorem c7_counterexample :
    lexNext 10 "[ " = none ∧
    (lexOut 10 "[ ").map Item.typ = [.leftVect, .eof] ∧
    ¬ (lexEnd 10 "[ ").vectDepth = 0 := by
  decide

/-- C8 (confirmed): for every input and any number of activations, an
error item can occur only as the last emitted item, and once an error
item has been emitted the machine has halted (its pending state is gone),
so no item of any kind follows it. -/
theorem c8_error_item_always_last (fuel : Nat) (s : String) :
    (∀ x ∈ (lexOut fuel s).dropLast, x.typ ≠ .error) ∧
    (∀ x ∈ lexOut fuel s, x.typ = .error → lexNext fuel s = none) := by
  have h := runN_inv fuel [] (initLexer s) (some .whitespace) (init_inv s)
  refine ⟨fun x hx => (h.1 x hx).1, fun x hx he => ?_⟩
  rcases hn : (runN fuel (initLexer s) (some .whitespace) []).2.2 with _ | sn
  · exact hn
  · exact absurd he ((h.2.1 (by simp [hn])).1 x hx).1

/-- Witness for C8: on `")\n"` the stream is right-paren then the
"unexpected close paren" error; the right-paren item (the single element
before the last) is not an error item, and the error item implies the
machine halted. -/
theorem c8_witness :
    (⟨.rightParen, 0, ")"⟩ : Item).typ ≠ .error ∧ lexNext 10 (gispInput ")") = none :=
  ⟨(c8_error_item_always_last 10 (gispInput ")")).1 ⟨.rightParen, 0, ")"⟩ (by decide),
   (c8_error_item_always_last 10 (gispInput ")")).2
     ⟨.error, 1, "unexpected close paren"⟩ (by decide) rfl⟩

/-- C9 (confirmed): in the close-paren state at non-negative resulting
depth, any following rune outside space/tab/newline/brackets/semicolon —
end of input included — makes the activation emit the right-paren item
and then the "unimplemented" error item and halt; concretely `"(a)b"` and `"(a)"` followed by a quote prefix and
`"x"` (as fed by the program) both end in that error item. -/
theorem c9_unimplemented_after_close_paren :
    (∀ (l : Lexer), 1 ≤ l.parenDepth →
      (∀ c, l.input.get? l.pos = some c →
        c ∉ ([' ', '\t', '\n', '(', ')', '[', ']', ';'] : List Char)) →
      (lexStep .closeParen l).nxt = none ∧
      (lexStep .closeParen l).out =
        [l.mkItem .rightParen, ⟨.error, l.pos, "unimplemented"⟩]) ∧
    (lexOut 100 (gispInput "(a)b")).getLast? = some ⟨.error, 3, "unimplemented"⟩ ∧
    (lexOut 100 (gispInput ("(a)" ++ String.mk [squote] ++ "x"))).getLast? =
      some ⟨.error, 3, "unimplemented"⟩ := by
  refine ⟨?_, by decide, by decide⟩
  intro l hd hc
  have hdisp : closeParenDispatch (l.input.get? l.pos) = none := by
    cases hg : l.input.get? l.pos with
    | none => rfl
    | some c =>
      have hmem := hc c hg
      simp only [List.mem_cons, not_or] at hmem
      simp [closeParenDispatch, hmem.1, hmem.2.1, hmem.2.2.1, hmem.2.2.2.1,
        hmem.2.2.2.2.1, hmem.2.2.2.2.2.1, hmem.2.2.2.2.2.2.1, hmem.2.2.2.2.2.2.2.1]
  simp only [lexStep, lexCloseParen, Lexer.nextRune, Lexer.afterEmit]
  split_ifs with h0
  · simp at h0
    omega
  · rw [show ({ l with start := l.pos, parenDepth := l.parenDepth - 1 } : Lexer).input.get?
        ({ l with start := l.pos, parenDepth := l.parenDepth - 1 } : Lexer).pos =
        l.input.get? l.pos from rfl] at *
    rw [hdisp]
    exact ⟨rfl, rfl⟩

/-- Witness for C9: the state-level statement applied to a lexer that has
just consumed the `)` of `")b"` at depth 1. -/
theorem c9_witness :
    (lexStep .closeParen ⟨[')', 'b'], 1, 0, 1, 1, 0⟩).nxt = none ∧
    (lexStep .closeParen ⟨[')', 'b'], 1, 0, 1, 1, 0⟩).out =
      [(⟨[')', 'b'], 1, 0, 1, 1, 0⟩ : Lexer).mkItem .rightParen,
       ⟨.error, 1, "unimplemented"⟩] :=
  c9_unimplemented_after_close_paren.1 ⟨[')', 'b'], 1, 0, 1, 1, 0⟩ (by decide)
    (by intro c hc; simp at hc; subst hc; decide)

/-- C10 (confirmed): the float state emits its float-literal item first,
whatever rune follows; the integer state on seeing `.` after the digit
run consumes it and moves to the float state emitting nothing; and the
concrete streams are float "1." then end-of-input for `"1. "`, and float
"1.5" then the "unexpected run in lexFloat: x" error for `"1.5x"`. -/
theorem c10_float_emitted_before_delimiter_check :
    (∀ l : Lexer, ∃ rest,
      (lexStep .float l).out = (l.acceptRun digitsList).mkItem .float :: rest) ∧
    (∀ l : Lexer, (l.acceptRun digitsList).nextRune = some '.' →
      (lexStep .int l).nxt = some .float ∧ (lexStep .int l).out = []) ∧
    lexOut 10 "1. " = [⟨.float, 0, "1."⟩, ⟨.eof, 3, ""⟩] ∧
    lexOut 10 "1.5x" = [⟨.float, 0, "1.5"⟩, ⟨.error, 3, "unexpected run in lexFloat: x"⟩] := by
  refine ⟨?_, ?_, by decide, by decide⟩
  · intro l
    simp only [lexStep, lexFloat]
    split_ifs <;> exact ⟨_, rfl⟩
  · intro l h
    simp [lexStep, lexInt, h]

/-- Witness for C10: the integer-state statement applied to a lexer that
has consumed the `1` of `"1."`. -/
theorem c10_witness :
    (lexStep .int ⟨['1', '.'], 1, 0, 1, 0, 0⟩).nxt = some .float ∧
    (lexStep .int ⟨['1', '.'], 1, 0, 1, 0, 0⟩).out = [] :=
  c10_float_emitted_before_delimiter_check.2.1 ⟨['1', '.'], 1, 0, 1, 0, 0⟩ (by decide)

end Gisp
